import Mathlib

/-!
A shallow embedding of `make_chart5_data.py`: the normalization-and-join
pipeline that merges a Bolsa Família baseline with sanitation, education and
unemployment metrics, all keyed by normalized Brazilian state name.

Modelling conventions:
* Python floats are modelled by `ℚ` (all values and arithmetic appearing in
  the pipeline are exact decimals; IEEE specials such as inf/nan are outside
  the model, so the float-literal parser recognizes the plain decimal
  grammar `[sign] digits [. digits] [(e|E) [sign] digits]`).
* Python dicts are insertion-ordered association lists; `dinsert` is dict
  assignment (update in place, append fresh keys at the end), `dget` is
  `dict.get`.
* A raw JSON record is a `Row`: either a string-keyed mapping of scalar
  field values (`PyVal`), or something that is not a mapping.  Nested
  containers appearing as field values are collapsed into `PyVal.other`
  (carrying their truthiness), since the script only ever type-checks them
  or feeds them to coercions that fail on containers.
* An exception raised inside a modelled region is `Option`-failure
  (`Except`-failure for the body of `as_float`, whose `try/except` is the
  catch that turns it into `none`).
-/

namespace Chart5

/-- A Python scalar value as it can appear in a parsed-JSON field.
`other` stands for any non-scalar (list, dict, object); it carries its
truthiness so that `x or y` is modelled faithfully. -/
inductive PyVal where
  | none
  | bool (b : Bool)
  | int (i : ℤ)
  | float (q : ℚ)
  | str (s : String)
  | other (t : Bool)
deriving DecidableEq

/-- Python truthiness of a scalar. -/
def truthy : PyVal → Bool
  | .none => false
  | .bool b => b
  | .int i => i != 0
  | .float q => q != 0
  | .str s => s != ""
  | .other t => t

/-- Model of `x or y` (Python short-circuit or, by truthiness). -/
def pyOr (a b : PyVal) : PyVal := if truthy a then a else b

/-- One raw record of an input sequence: a JSON object or a non-object. -/
inductive Row where
  | dict (fields : List (String × PyVal))
  | notDict
deriving DecidableEq

/-- Model of `r.get(k)`: value of field `k`, `None` when absent. -/
def pyGet : List (String × PyVal) → String → PyVal
  | [], _ => .none
  | (k', v) :: t, k => if k' = k then v else pyGet t k

/-- Model of `k in r`: field-name membership. -/
def hasKey : List (String × PyVal) → String → Bool
  | [], _ => false
  | (k', _) :: t, k => k' == k || hasKey t k

/-- Model of `d.get(k)` on an insertion-ordered dict. -/
def dget {α β : Type} [DecidableEq α] : List (α × β) → α → Option β
  | [], _ => none
  | (a, b) :: t, k => if a = k then some b else dget t k

/-- Model of `d[k] = v` on an insertion-ordered dict: update in place when the key
exists, otherwise append at the end. -/
def dinsert {α β : Type} [DecidableEq α] (k : α) (v : β) :
    List (α × β) → List (α × β)
  | [] => [(k, v)]
  | (a, b) :: t => if a = k then (k, v) :: t else (a, b) :: dinsert k v t

/-! ### Character-level helpers for `_norm` and the numeric parsers -/

/-- Whitespace as recognized by `str.strip` / `str.split` (ASCII range). -/
def pySpace (c : Char) : Bool :=
  c == ' ' || c == '\t' || c == '\n' || c == '\r' ||
  c == Char.ofNat 11 || c == Char.ofNat 12

/-- Model of `str.lower` per character: ASCII letters plus the precomposed Latin-1
letters (the alphabet of Brazilian state names). -/
def pyLowerChar (c : Char) : Char :=
  let n := c.toNat
  if 65 ≤ n ∧ n ≤ 90 then Char.ofNat (n + 32)
  else if 192 ≤ n ∧ n ≤ 222 ∧ n ≠ 215 then Char.ofNat (n + 32)
  else c

/-- Model of `str.upper` per character, same alphabet as `pyLowerChar`. -/
def pyUpperChar (c : Char) : Char :=
  let n := c.toNat
  if 97 ≤ n ∧ n ≤ 122 then Char.ofNat (n - 32)
  else if 224 ≤ n ∧ n ≤ 254 ∧ n ≠ 247 then Char.ofNat (n - 32)
  else c

/-- Combining grave accent U+0300. -/
def mGrave : Char := Char.ofNat 768
/-- Combining acute accent U+0301. -/
def mAcute : Char := Char.ofNat 769
/-- Combining circumflex U+0302. -/
def mCirc : Char := Char.ofNat 770
/-- Combining tilde U+0303. -/
def mTilde : Char := Char.ofNat 771
/-- Combining diaeresis U+0308. -/
def mDia : Char := Char.ofNat 776
/-- Combining ring above U+030A. -/
def mRing : Char := Char.ofNat 778
/-- Combining cedilla U+0327. -/
def mCedil : Char := Char.ofNat 807

/-- NFKD decompositions of the precomposed lowercase Latin-1 letters
relevant to Brazilian state names (all other characters are NFKD-inert in
the model). -/
def nfkdTable : List (Char × List Char) :=
  [('à', ['a', mGrave]), ('á', ['a', mAcute]), ('â', ['a', mCirc]),
   ('ã', ['a', mTilde]), ('ä', ['a', mDia]), ('å', ['a', mRing]),
   ('ç', ['c', mCedil]),
   ('è', ['e', mGrave]), ('é', ['e', mAcute]), ('ê', ['e', mCirc]),
   ('ë', ['e', mDia]),
   ('ì', ['i', mGrave]), ('í', ['i', mAcute]), ('î', ['i', mCirc]),
   ('ï', ['i', mDia]),
   ('ñ', ['n', mTilde]),
   ('ò', ['o', mGrave]), ('ó', ['o', mAcute]), ('ô', ['o', mCirc]),
   ('õ', ['o', mTilde]), ('ö', ['o', mDia]),
   ('ù', ['u', mGrave]), ('ú', ['u', mAcute]), ('û', ['u', mCirc]),
   ('ü', ['u', mDia]),
   ('ý', ['y', mAcute])]

/-- Model of `unicodedata.normalize("NFKD", ·)` per character. -/
def nfkdChar (c : Char) : List Char :=
  match nfkdTable.find? (fun p => p.1 == c) with
  | some p => p.2
  | none => [c]

/-- Model of `unicodedata.combining(c) != 0`: the combining-diacritics block. -/
def isCombining (c : Char) : Bool :=
  768 ≤ c.toNat && c.toNat ≤ 879

/-- Model of `str.strip` on a character list. -/
def stripChars (cs : List Char) : List Char :=
  ((cs.dropWhile pySpace).reverse.dropWhile pySpace).reverse

/-- Model of `str.strip` on a string. -/
def pyStrip (s : String) : String := ⟨stripChars s.data⟩

/-- Model of `str.upper` on a string. -/
def pyUpper (s : String) : String := ⟨s.data.map pyUpperChar⟩

/-- Model of `str.split()` with no argument: split on whitespace runs, no empties. -/
def splitWsAux : List Char → List Char → List (List Char)
  | [], acc => if acc = [] then [] else [acc.reverse]
  | c :: cs, acc =>
    if pySpace c then
      if acc = [] then splitWsAux cs [] else acc.reverse :: splitWsAux cs []
    else splitWsAux cs (c :: acc)

/-- Model of `str.split()` on a character list. -/
def splitWs (cs : List Char) : List (List Char) := splitWsAux cs []

/-- The word list computed by `_norm` before the final `" ".join`:
strip, lower-case, NFKD-decompose and drop combining marks, replace
hyphens with spaces, split on whitespace. -/
def normWords (s : String) : List (List Char) :=
  let cs := stripChars s.data
  let cs := cs.map pyLowerChar
  let cs := (cs.map nfkdChar).flatten.filter (fun c => !(isCombining c))
  let cs := cs.map (fun c => if c == '-' then ' ' else c)
  splitWs cs

/-- Model of `_norm`: normalize state names for robust joins (lowercase, strip
accents, collapse spaces) — the Key Normalizer. -/
def _norm (s : String) : String :=
  ⟨List.intercalate [' '] (normWords s)⟩

/-! ### Static code table -/

/-- Model of `UF_TO_STATE`: the static two-letter-code → display-name table, in
source insertion order. -/
def UF_TO_STATE : List (String × String) :=
  [("AC", "Acre"), ("AL", "Alagoas"), ("AP", "Amapá"), ("AM", "Amazonas"),
   ("BA", "Bahia"), ("CE", "Ceará"), ("DF", "Distrito Federal"),
   ("ES", "Espírito Santo"), ("GO", "Goiás"), ("MA", "Maranhão"),
   ("MT", "Mato Grosso"), ("MS", "Mato Grosso do Sul"),
   ("MG", "Minas Gerais"), ("PA", "Pará"), ("PB", "Paraíba"),
   ("PR", "Paraná"), ("PE", "Pernambuco"), ("PI", "Piauí"),
   ("RJ", "Rio de Janeiro"), ("RN", "Rio Grande do Norte"),
   ("RS", "Rio Grande do Sul"), ("RO", "Rondônia"), ("RR", "Roraima"),
   ("SC", "Santa Catarina"), ("SP", "São Paulo"), ("SE", "Sergipe"),
   ("TO", "Tocantins")]

/-- Model of `STATE_TO_UF = {_norm(v): k for k, v in UF_TO_STATE.items()}`. -/
def STATE_TO_UF : List (String × String) :=
  UF_TO_STATE.map (fun p => (_norm p.2, p.1))

/-! ### Numeric Coercer (`as_float`) and integer parsing -/

/-- Numeric value of an ASCII digit. -/
def digitVal (c : Char) : ℕ := c.toNat - 48

/-- Consume a maximal run of leading ASCII digits: accumulated value,
number of digits consumed, rest. -/
def takeDigitsAux : List Char → ℕ → ℕ → ℕ × ℕ × List Char
  | [], v, n => (v, n, [])
  | c :: cs, v, n =>
    if c.isDigit then takeDigitsAux cs (v * 10 + digitVal c) (n + 1)
    else (v, n, c :: cs)

/-- Consume a maximal run of leading ASCII digits. -/
def takeDigits (cs : List Char) : ℕ × ℕ × List Char := takeDigitsAux cs 0 0

/-- Optional exponent suffix of a float literal; the input must be fully
consumed. -/
def parseExp (cs : List Char) (mant : ℚ) : Option ℚ :=
  match cs with
  | [] => some mant
  | c :: rest =>
    if c == 'e' || c == 'E' then
      let sr : Bool × List Char :=
        match rest with
        | '+' :: r => (false, r)
        | '-' :: r => (true, r)
        | r => (false, r)
      let (e, n, rest3) := takeDigits sr.2
      if n = 0 ∨ rest3 ≠ [] then none
      else some (if sr.1 then mant / (10 : ℚ) ^ e else mant * (10 : ℚ) ^ e)
    else none

/-- Unsigned mantissa (digits, optional point, digits) with optional
exponent; at least one mantissa digit is required. -/
def parseMant (cs : List Char) : Option ℚ :=
  let (ip, icnt, r1) := takeDigits cs
  match r1 with
  | '.' :: r2 =>
    let (fp, fcnt, r3) := takeDigits r2
    if icnt = 0 ∧ fcnt = 0 then none
    else parseExp r3 ((ip : ℚ) + (fp : ℚ) / (10 : ℚ) ^ fcnt)
  | r =>
    if icnt = 0 then none
    else parseExp r (ip : ℚ)

/-- Model of `float(s)` on a string: strip whitespace, optional sign, plain decimal
literal (see the module comment for the scope of the model). -/
def pyFloat? (s : String) : Option ℚ :=
  match stripChars s.data with
  | '+' :: r => parseMant r
  | '-' :: r => (parseMant r).map (fun q => -q)
  | r => parseMant r

/-- Model of `s.replace("%", "")`. -/
def dropPercent (s : String) : String := ⟨s.data.filter (fun c => c != '%')⟩

/-- Model of `s.replace(",", ".")`. -/
def commaDot (s : String) : String :=
  ⟨s.data.map (fun c => if c == ',' then '.' else c)⟩

/-- The body of `as_float` before its `try/except`: `.error` is a raised
exception (`ValueError` from `float(str)`, `TypeError` from `float(other)`).
-/
def as_float_aux : PyVal → Except String (Option ℚ)
  | .none => .ok none
  | .bool b => .ok (some (if b then 1 else 0))
  | .int i => .ok (some (i : ℚ))
  | .float q => .ok (some q)
  | .str x =>
    let s := pyStrip x
    if s = "" then .ok none
    else
      match pyFloat? (commaDot (dropPercent s)) with
      | some q => .ok (some q)
      | none => .error "ValueError"
  | .other _ => .error "TypeError"

/-- Model of `as_float`: convert common messy inputs into float; the `except`
clause turns every raised exception into `None`. -/
def as_float (x : PyVal) : Option ℚ :=
  match as_float_aux x with
  | .ok v => v
  | .error _ => none

/-- Whether the body of `as_float` raises on `x` (caught by its
`except`). -/
def as_float_raises (x : PyVal) : Bool :=
  match as_float_aux x with
  | .ok _ => false
  | .error _ => true

/-- Trailing part of `int(s)` on an already-stripped digit run: all input
must be digits, at least one. -/
def intDigits? (cs : List Char) : Option ℕ :=
  let (v, n, rest) := takeDigits cs
  if n = 0 ∨ rest ≠ [] then none else some v

/-- Model of `int(s)` on a string: strip, optional sign, decimal digits only. -/
def pyIntStr? (s : String) : Option ℤ :=
  match stripChars s.data with
  | '+' :: r => (intDigits? r).map (fun n => (n : ℤ))
  | '-' :: r => (intDigits? r).map (fun n => -(n : ℤ))
  | r => (intDigits? r).map (fun n => (n : ℤ))

/-- Model of `int(float)` truncates toward zero. -/
def ratTrunc (q : ℚ) : ℤ := Int.tdiv q.num (q.den : ℤ)

/-- Model of `int(x)` on a scalar, `none` when it raises. -/
def pyInt? : PyVal → Option ℤ
  | .none => none
  | .bool b => some (if b then 1 else 0)
  | .int i => some i
  | .float q => some (ratTrunc q)
  | .str s => pyIntStr? s
  | .other _ => none

/-! ### Baseline loader (`load_bf_totals_by_state_norm`) -/

/-- One parsed baseline entry: `{"State": ..., "UF": ..., "bf_total": ...}`.
-/
structure BFRow where
  State : String
  UF : String
  bf_total : ℚ
deriving DecidableEq

/-- The ordered list of candidate field names for the baseline total. -/
def bfAliases : List String :=
  ["total_pago_2021", "total_paid_2021", "total_paid", "total_pago", "total"]

/-- The alias-probing loop: `for k in [...]: if k in r: total = as_float(
r.get(k)); break`. -/
def probe_loop : List String → List (String × PyVal) → Option ℚ
  | [], _ => none
  | k :: ks, fs => if hasKey fs k then as_float (pyGet fs k) else probe_loop ks fs

/-- Lines 113–116 of the source: `uf = r.get("UF") or r.get("uf")`, skip
unless it is a string whose strip has length 2, then strip-and-uppercase. -/
def bf_code (fs : List (String × PyVal)) : Option String :=
  match pyOr (pyGet fs "UF") (pyGet fs "uf") with
  | .str u => if (pyStrip u).data.length = 2 then some (pyUpper (pyStrip u)) else none
  | _ => none

/-- The per-record body of the baseline loader's loop: `none` means the
record is skipped by one of its `continue`s. -/
def bf_parse (r : Row) : Option (String × BFRow) :=
  match r with
  | .notDict => none
  | .dict fs =>
    match bf_code fs with
    | none => none
    | some uf =>
      match probe_loop bfAliases fs with
      | none => none
      | some total =>
        match dget UF_TO_STATE uf with
        | none => none
        | some state => some (_norm state, ⟨state, uf, total⟩)

/-- The baseline loader on an already-parsed row sequence. -/
def load_bf (rows : List Row) : List (String × BFRow) :=
  rows.foldl
    (fun d r => match bf_parse r with | some (k, v) => dinsert k v d | none => d) []

/-! ### Sanitation loader (`load_sanitation_2022_by_state_norm`) -/

/-- Per-record body of the sanitation loader. -/
def san_parse (r : Row) : Option (String × ℚ) :=
  match r with
  | .notDict => none
  | .dict fs =>
    match pyGet fs "State" with
    | .str st =>
      match as_float (pyGet fs "Sanitation_Access") with
      | some v => some (_norm st, v)
      | none => none
    | _ => none

/-- The sanitation loader on an already-parsed row sequence (last
occurrence per key wins). -/
def load_san (rows : List Row) : List (String × ℚ) :=
  rows.foldl
    (fun d r => match san_parse r with | some (k, v) => dinsert k v d | none => d) []

/-! ### Education loader (`load_education_latest_by_state_norm`) -/

/-- Per-record extraction of the education loader: key, parsed year,
coerced schooling value. -/
def edu_parse (r : Row) : Option (String × ℤ × ℚ) :=
  match r with
  | .notDict => none
  | .dict fs =>
    match pyGet fs "State" with
    | .str st =>
      match pyInt? (pyGet fs "Year") with
      | some y =>
        match as_float (pyGet fs "Years_Schooling") with
        | some ys => some (_norm st, y, ys)
        | none => none
      | none => none
    | _ => none

/-- The valid (key, year, value) entries of an education row sequence, in
order. -/
def eduEntries (rows : List Row) : List (String × ℤ × ℚ) :=
  rows.filterMap edu_parse

/-- One iteration of the education loop over `best`: keep the previous
entry unless the new record's year is strictly greater (or the key is
new). -/
def edu_step (best : List (String × ℤ × ℚ)) (r : Row) : List (String × ℤ × ℚ) :=
  match edu_parse r with
  | none => best
  | some (k, y, ys) =>
    match dget best k with
    | none => dinsert k (y, ys) best
    | some prev => if y > prev.1 then dinsert k (y, ys) best else best

/-- The `best` dict after the education loop. -/
def eduBest (rows : List Row) : List (String × ℤ × ℚ) :=
  rows.foldl edu_step []

/-- The education loader: `out = {k: v for k, (_, v) in best.items()}`. -/
def load_edu (rows : List Row) : List (String × ℚ) :=
  (eduBest rows).map (fun p => (p.1, p.2.2))

/-! ### Unemployment loader (`load_unemployment_2022_avg_by_state_norm`) -/

/-- Per-record extraction of the unemployment loader: key (from the
`City` field, which holds the state name), year (first four characters of
`Quarter`, which must be digits), coerced rate. -/
def unemp_parse (r : Row) : Option (String × ℤ × ℚ) :=
  match r with
  | .notDict => none
  | .dict fs =>
    match pyGet fs "City" with
    | .str st =>
      match pyGet fs "Quarter" with
      | .str q =>
        if 4 ≤ q.data.length ∧ (q.data.take 4).all Char.isDigit then
          match as_float (pyGet fs "Unemployment_Rate") with
          | some rate =>
            some (_norm st, ((q.data.take 4).foldl (fun a c => a * 10 + digitVal c) 0 : ℕ), rate)
          | none => none
        else none
      | _ => none
    | _ => none

/-- The valid (key, year, rate) entries of an unemployment row sequence,
in order. -/
def unempEntries (rows : List Row) : List (String × ℤ × ℚ) :=
  rows.filterMap unemp_parse

/-- Model of `years_map.setdefault(year, []).append(rate)`. -/
def appendRate (y : ℤ) (rate : ℚ) : List (ℤ × List ℚ) → List (ℤ × List ℚ)
  | [] => [(y, [rate])]
  | (y', l) :: t =>
    if y' = y then (y', l ++ [rate]) :: t else (y', l) :: appendRate y rate t

/-- Model of `by_state_year.setdefault(key, {}).setdefault(year, []).append(rate)`.
-/
def addRate (k : String) (y : ℤ) (rate : ℚ) :
    List (String × List (ℤ × List ℚ)) → List (String × List (ℤ × List ℚ))
  | [] => [(k, [(y, [rate])])]
  | (k', m) :: t =>
    if k' = k then (k', appendRate y rate m) :: t else (k', m) :: addRate k y rate t

/-- One iteration of the unemployment grouping loop. -/
def unemp_step (d : List (String × List (ℤ × List ℚ))) (r : Row) :
    List (String × List (ℤ × List ℚ)) :=
  match unemp_parse r with
  | some (k, y, rate) => addRate k y rate d
  | none => d

/-- The grouping pass of the unemployment loader. -/
def byStateYear (rows : List Row) : List (String × List (ℤ × List ℚ)) :=
  rows.foldl unemp_step []

/-- Model of `statistics.mean`: raises (models to `none`) on an empty sequence. -/
def pyMean? (l : List ℚ) : Option ℚ :=
  if l = [] then none else some (l.sum / (l.length : ℚ))

/-- Model of `max(years_map.keys())`: raises (models to `none`) on an empty dict. -/
def maxKey {β : Type} : List (ℤ × β) → Option ℤ
  | [] => none
  | (y, _) :: t =>
    match maxKey t with
    | none => some y
    | some m => some (max y m)

/-- The else branch of the selection: mean of the latest year present;
`none` models a raised exception. -/
def unemp_fallback (m : List (ℤ × List ℚ)) : Option ℚ :=
  match maxKey m with
  | none => none
  | some y =>
    match dget m y with
    | none => none
    | some l => pyMean? l

/-- Per-state selection: `if 2022 in years_map and years_map[2022]:` mean
of 2022, else mean of the latest year. -/
def unemp_pick (m : List (ℤ × List ℚ)) : Option ℚ :=
  match dget m 2022 with
  | some l => if l.isEmpty then unemp_fallback m else pyMean? l
  | none => unemp_fallback m

/-- The output pass of the unemployment loader; `none` models an
exception escaping the loop. -/
def unemp_out : List (String × List (ℤ × List ℚ)) → Option (List (String × ℚ))
  | [] => some []
  | (k, m) :: t =>
    match unemp_pick m, unemp_out t with
    | some v, some rest => some ((k, v) :: rest)
    | _, _ => none

/-- The unemployment loader on an already-parsed row sequence. -/
def load_unemp (rows : List Row) : Option (List (String × ℚ)) :=
  unemp_out (byStateYear rows)

/-! ### Join/Reshape engine (`build_long_rows`) -/

/-- One output record of the long-format table. -/
structure OutRec where
  UF : String
  State : String
  bf_total : ℚ
  dimension : String
  value : ℚ
deriving DecidableEq

/-- The `added` / `missing` per-dimension counters. -/
structure Counts where
  sanitation : ℕ
  education : ℕ
  unemployment : ℕ
deriving DecidableEq

/-- The body of the join loop for one baseline state: appends up to three
records (sanitation, education, unemployment in that order) and bumps the
corresponding `added` / `missing` counters. -/
def join_step (san edu unemp : List (String × ℚ))
    (acc : List OutRec × Counts × Counts) (p : String × BFRow) :
    List OutRec × Counts × Counts :=
  let b := p.2
  let s1 : List OutRec × Counts × Counts :=
    match dget san p.1 with
    | some v =>
      (acc.1 ++ [⟨b.UF, b.State, b.bf_total, "Sanitation access (%)", v⟩],
       {acc.2.1 with sanitation := acc.2.1.sanitation + 1}, acc.2.2)
    | none =>
      (acc.1, acc.2.1, {acc.2.2 with sanitation := acc.2.2.sanitation + 1})
  let s2 : List OutRec × Counts × Counts :=
    match dget edu p.1 with
    | some v =>
      (s1.1 ++ [⟨b.UF, b.State, b.bf_total, "Education (years)", v⟩],
       {s1.2.1 with education := s1.2.1.education + 1}, s1.2.2)
    | none =>
      (s1.1, s1.2.1, {s1.2.2 with education := s1.2.2.education + 1})
  match dget unemp p.1 with
  | some v =>
    (s2.1 ++ [⟨b.UF, b.State, b.bf_total, "Unemployment (%)", v⟩],
     {s2.2.1 with unemployment := s2.2.1.unemployment + 1}, s2.2.2)
  | none =>
    (s2.1, s2.2.1, {s2.2.2 with unemployment := s2.2.2.unemployment + 1})

/-- The join over all baseline states: output rows, `added` counters,
`missing` counters. -/
def build_join (bf : List (String × BFRow)) (san edu unemp : List (String × ℚ)) :
    List OutRec × Counts × Counts :=
  bf.foldl (join_step san edu unemp) ([], ⟨0, 0, 0⟩, ⟨0, 0, 0⟩)

/-! ### Source-level pipeline (`build_long_rows` / `main`) -/

/-- A raw metric source: file absent, present but not a JSON list, or a
parsed row list. -/
inductive MSrc where
  | absent
  | notList
  | rows (rs : List Row)

/-- The raw baseline source: file absent or a parsed row list (the
baseline loader iterates its JSON directly; only the list case is modelled).
-/
inductive BSrc where
  | absent
  | rows (rs : List Row)

/-- Model of `load_bf_totals_by_state_norm` including its file-existence check. -/
def load_bf_src : BSrc → List (String × BFRow)
  | .absent => []
  | .rows rs => load_bf rs

/-- Model of `load_sanitation_2022_by_state_norm` including its guards. -/
def load_san_src : MSrc → List (String × ℚ)
  | .absent => []
  | .notList => []
  | .rows rs => load_san rs

/-- Model of `load_education_latest_by_state_norm` including its guards. -/
def load_edu_src : MSrc → List (String × ℚ)
  | .absent => []
  | .notList => []
  | .rows rs => load_edu rs

/-- Model of `load_unemployment_2022_avg_by_state_norm` including its guards. -/
def load_unemp_src : MSrc → Option (List (String × ℚ))
  | .absent => some []
  | .notList => some []
  | .rows rs => load_unemp rs

/-- Model of `build_long_rows`: load the baseline first; if it is empty, return the
empty list before any metric loader runs; otherwise load the three metric
maps and join.  `none` models a crash of the process. -/
def build_long_rows (b : BSrc) (s e u : MSrc) : Option (List OutRec) :=
  let bf := load_bf_src b
  if bf = [] then some []
  else
    let san := load_san_src s
    let edu := load_edu_src e
    match load_unemp_src u with
    | none => none
    | some unemp => some (build_join bf san edu unemp).1

/-! ### Specification-side characterizations (compared against the
translated code in the theorems below) -/

/-- The records the join emits for one baseline state: one per dimension
whose metric map contains the state's key, in the fixed order sanitation,
education, unemployment. -/
def stateRecs (san edu unemp : List (String × ℚ)) (p : String × BFRow) :
    List OutRec :=
  (match dget san p.1 with
   | some v => [⟨p.2.UF, p.2.State, p.2.bf_total, "Sanitation access (%)", v⟩]
   | none => []) ++
  (match dget edu p.1 with
   | some v => [⟨p.2.UF, p.2.State, p.2.bf_total, "Education (years)", v⟩]
   | none => []) ++
  (match dget unemp p.1 with
   | some v => [⟨p.2.UF, p.2.State, p.2.bf_total, "Unemployment (%)", v⟩]
   | none => [])

/-- The education loop's scalar state for one key, folded over that key's
(year, value) entries: first entry wins, a later entry replaces only on a
strictly greater year. -/
def keep1 : Option (ℤ × ℚ) → List (ℤ × ℚ) → Option (ℤ × ℚ)
  | acc, [] => acc
  | acc, e :: es =>
    keep1
      (match acc with
       | none => some e
       | some prev => if e.1 > prev.1 then some e else acc) es

/-- Specification of "most recent wins, first one encountered stands on a
tie": the first entry whose year equals the maximal year. -/
def firstMax (es : List (ℤ × ℚ)) : Option (ℤ × ℚ) :=
  match maxKey es with
  | none => none
  | some M => es.find? (fun p => decide (p.1 = M))

/-- The observation list stored for year `y` (empty when absent). -/
def ratesOf2 (m : List (ℤ × List ℚ)) (y : ℤ) : List ℚ := (dget m y).getD []

/-- The observation list tracked for `(state key, year)` (empty when
absent). -/
def ratesOf (d : List (String × List (ℤ × List ℚ))) (k : String) (y : ℤ) :
    List ℚ :=
  ratesOf2 ((dget d k).getD []) y

/-- The unemployment loader's final value for one state key (`none` when
the loader fails or the key is absent). -/
def unempResult (rows : List Row) (k : String) : Option ℚ :=
  match load_unemp rows with
  | some out => dget out k
  | none => none

/-- Mean of the observations of the numerically-largest year present. -/
def latestMean (m : List (ℤ × List ℚ)) : Option ℚ :=
  match maxKey m with
  | some y => pyMean? (ratesOf2 m y)
  | none => none

/-- Invariant of the grouping structure: every per-state year map and
every per-year observation list is non-empty. -/
def goodD (d : List (String × List (ℤ × List ℚ))) : Prop :=
  ∀ q ∈ d, q.2 ≠ [] ∧ ∀ p ∈ q.2, p.2 ≠ []

/-! ### Concrete inputs used by the claims -/

/-- Education example rows: Bahia at 2019 (7.1) and 2021 (7.9). -/
def exEdu : List Row :=
  [.dict [("State", .str "Bahia"), ("Year", .int 2019), ("Years_Schooling", .float (71/10))],
   .dict [("State", .str "Bahia"), ("Year", .int 2021), ("Years_Schooling", .float (79/10))]]

/-- Education tie example rows: two Bahia records at the same year 2021. -/
def exEduTie : List Row :=
  [.dict [("State", .str "Bahia"), ("Year", .int 2021), ("Years_Schooling", .float (71/10))],
   .dict [("State", .str "Bahia"), ("Year", .int 2021), ("Years_Schooling", .float (79/10))]]

/-- Unemployment example rows: quarters 2022Q1 (9.0) and 2022Q3 (11.0) for
one state. -/
def exUn1 : List Row :=
  [.dict [("City", .str "X"), ("Quarter", .str "2022Q1"), ("Unemployment_Rate", .float 9)],
   .dict [("City", .str "X"), ("Quarter", .str "2022Q3"), ("Unemployment_Rate", .float 11)]]

/-- Unemployment example rows: only quarter 2021Q2 (6.0). -/
def exUn2 : List Row :=
  [.dict [("City", .str "X"), ("Quarter", .str "2021Q2"), ("Unemployment_Rate", .float 6)]]

/-- A baseline record with a well-formed two-character code that is not a
valid state code, and a coercible `total` field. -/
def fsZZ : List (String × PyVal) := [("UF", .str "ZZ"), ("total", .int 5)]

/-- A baseline record whose first present alias (`total_pago_2021`) does
not coerce while a later alias (`total`) would. -/
def fsBad : List (String × PyVal) :=
  [("UF", .str "BA"), ("total_pago_2021", .str "abc"), ("total", .int 5)]

/-! ## Helper lemmas -/

theorem dget_dinsert_self {α β : Type} [DecidableEq α] (k : α) (v : β)
    (d : List (α × β)) : dget (dinsert k v d) k = some v := by
  induction d with
  | nil => simp [dinsert, dget]
  | cons p t ih =>
    by_cases h : p.1 = k
    · simp [dinsert, dget, h]
    · simp [dinsert, dget, h, ih]

theorem dget_dinsert_ne {α β : Type} [DecidableEq α] (k' k : α) (v : β)
    (d : List (α × β)) (h : k' ≠ k) : dget (dinsert k' v d) k = dget d k := by
  induction d with
  | nil => simp [dinsert, dget, h]
  | cons p t ih =>
    by_cases hp : p.1 = k'
    · simp [dinsert, dget, hp, h]
    · simp [dinsert, dget, hp, ih]

theorem dget_mem {α β : Type} [DecidableEq α] (d : List (α × β)) (k : α)
    (v : β) (h : dget d k = some v) : (k, v) ∈ d := by
  induction d with
  | nil => simp [dget] at h
  | cons p t ih =>
    obtain ⟨a, b⟩ := p
    simp only [dget] at h
    by_cases hp : a = k
    · rw [if_pos hp] at h
      injection h with h2
      subst hp
      subst h2
      exact List.mem_cons_self _ _
    · rw [if_neg hp] at h
      exact List.mem_cons_of_mem _ (ih h)

theorem dget_map_snd {α β γ : Type} [DecidableEq α] (d : List (α × β))
    (f : β → γ) (k : α) :
    dget (d.map (fun p => (p.1, f p.2))) k = (dget d k).map f := by
  induction d with
  | nil => simp [dget]
  | cons p t ih =>
    by_cases hp : p.1 = k
    · simp [dget, hp]
    · simp [dget, hp, ih]

theorem probe_loop_eq (ks : List String) (fs : List (String × PyVal)) :
    probe_loop ks fs =
    match ks.find? (fun k => hasKey fs k) with
    | some k => as_float (pyGet fs k)
    | none => none := by
  induction ks with
  | nil => rfl
  | cons k ks ih =>
    by_cases h : hasKey fs k
    · rw [probe_loop, if_pos h, List.find?_cons_of_pos _ h]
    · rw [probe_loop, if_neg ?hneg, List.find?_cons_of_neg, ih]
      · simp [h]
      case hneg => simp [h]

/-! ## Claim theorems -/

/-- C5: the Numeric Coercer maps absent input and empty/whitespace-only
strings to no value, already-numeric input to its direct conversion, and a
string to the float parse of the string after trimming whitespace,
removing `%` and replacing `,` with `.`; in particular "8,4" ↦ 8.4,
"83%" ↦ 83.0, " 12.3 " ↦ 12.3, "" ↦ none, None ↦ none, "abc" ↦ none. -/
theorem C5_numeric_coercer :
    (∀ s : String, as_float (.str s) =
      (if pyStrip s = "" then none
       else pyFloat? (commaDot (dropPercent (pyStrip s)))))
    ∧ as_float .none = none
    ∧ (∀ i : ℤ, as_float (.int i) = some (i : ℚ))
    ∧ (∀ q : ℚ, as_float (.float q) = some q)
    ∧ as_float (.str "8,4") = some (42/5 : ℚ)
    ∧ as_float (.str "83%") = some 83
    ∧ as_float (.str " 12.3 ") = some (123/10 : ℚ)
    ∧ as_float (.str "") = none
    ∧ as_float (.str "abc") = none := by
  refine ⟨?_, rfl, fun i => rfl, fun q => rfl,
    by with_unfolding_all rfl, by with_unfolding_all rfl,
    by with_unfolding_all rfl, by decide, by decide⟩
  intro s
  show (match as_float_aux (.str s) with | .ok v => v | .error _ => none) = _
  unfold as_float_aux
  by_cases h : pyStrip s = ""
  · simp [h]
  · simp only [h, if_neg, if_false]
    cases pyFloat? (commaDot (dropPercent (pyStrip s))) <;> simp

/-- C6: the Numeric Coercer is total: whenever its body raises, the result
is no value; the result is always a float or no value; and downstream (the
sanitation loader shown here) a field coercing to no value is treated
exactly like an absent field — the record is skipped. -/
theorem C6_coercer_total :
    (∀ x : PyVal, as_float_raises x = true → as_float x = none)
    ∧ (∀ x : PyVal, as_float x = none ∨ ∃ q : ℚ, as_float x = some q)
    ∧ (∀ fs : List (String × PyVal),
        as_float (pyGet fs "Sanitation_Access") = none →
        san_parse (.dict fs) = none) := by
  refine ⟨?_, ?_, ?_⟩
  · intro x h
    unfold as_float_raises at h
    unfold as_float
    cases heq : as_float_aux x with
    | ok v => rw [heq] at h; simp at h
    | error e => simp
  · intro x
    cases h : as_float x with
    | none => exact Or.inl rfl
    | some q => exact Or.inr ⟨q, rfl⟩
  · intro fs h
    show (match pyGet fs "State" with
          | PyVal.str st =>
            match as_float (pyGet fs "Sanitation_Access") with
            | some v => some (_norm st, v)
            | none => none
          | _ => none) = none
    rw [h]
    cases pyGet fs "State" <;> rfl

/-- Witness for C6 at concrete inputs: "abc" coerces to no value because
the float parse raises, and a sanitation record carrying it is skipped. -/
theorem C6_witness :
    as_float (.str "abc") = none
    ∧ san_parse (.dict [("State", .str "Bahia"),
        ("Sanitation_Access", .str "abc")]) = none :=
  ⟨C6_coercer_total.1 (.str "abc") (by decide),
   C6_coercer_total.2.2 _ (by decide)⟩

/-- C7: the Key Normalizer is a total function of the string; any two
display strings with the same word list after trimming, lower-casing,
diacritic stripping and hyphen/space canonicalization (i.e. differing only
by diacritics, casing, or hyphen/space variation) get the same key; and
"São Paulo", "sao paulo", "SAO-PAULO" all produce "sao paulo". -/
theorem C7_key_normalizer :
    (∀ s t : String, normWords s = normWords t → _norm s = _norm t)
    ∧ _norm "São Paulo" = "sao paulo"
    ∧ _norm "sao paulo" = "sao paulo"
    ∧ _norm "SAO-PAULO" = "sao paulo" := by
  refine ⟨?_, by decide, by decide, by decide⟩
  intro s t h
  unfold _norm
  rw [h]

/-- Witness for C7: two further variants (extra spaces, all-caps accents,
hyphen) normalize identically. -/
theorem C7_witness : _norm "SÃO  PAULO" = _norm "sao-paulo" :=
  C7_key_normalizer.1 "SÃO  PAULO" "sao-paulo" (by decide)

/-- C9: the static code table has exactly 27 codes, pairwise distinct; the
27 display names stay pairwise distinct after key normalization; and the
reverse table round-trips every code through its display name's key. -/
theorem C9_code_table :
    UF_TO_STATE.length = 27
    ∧ (UF_TO_STATE.map (fun p => p.1)).Nodup
    ∧ (UF_TO_STATE.map (fun p => _norm p.2)).Nodup
    ∧ (UF_TO_STATE.all
        (fun p => decide (dget STATE_TO_UF (_norm p.2) = some p.1))) = true := by
  refine ⟨by decide, by decide, by decide, by decide⟩

/-- C8: if the baseline mapping is empty — in particular when the baseline
source is absent — the pipeline returns the empty output without crashing,
whatever the three metric sources are. -/
theorem C8_empty_baseline :
    (∀ s e u : MSrc, build_long_rows .absent s e u = some [])
    ∧ (∀ (b : BSrc) (s e u : MSrc),
        load_bf_src b = [] → build_long_rows b s e u = some []) := by
  have h2 : ∀ (b : BSrc) (s e u : MSrc),
      load_bf_src b = [] → build_long_rows b s e u = some [] := by
    intro b s e u h
    unfold build_long_rows
    rw [h]
    simp
  exact ⟨fun s e u => h2 .absent s e u rfl, h2⟩

/-- Witness for C8: a baseline source whose only record is not a mapping
parses to an empty baseline, and the pipeline yields the empty output even
with a malformed unemployment source present. -/
theorem C8_witness :
    build_long_rows (.rows [.notDict]) (.rows [.notDict]) .absent .notList
      = some [] :=
  C8_empty_baseline.2 (.rows [.notDict]) (.rows [.notDict]) .absent .notList
    (by decide)

/-- C4 counterexample: against the claim's "kept exactly when some
candidate alias yields a coercible value", (1) a record with the
well-formed two-character code "ZZ" (not a valid state code) and a
coercible `total` field is skipped; (2) a record with valid code "BA"
whose first present alias `total_pago_2021` does not coerce is skipped
even though the later alias `total` holds a coercible value. -/
theorem C4_counterexample :
    (bf_code fsZZ = some "ZZ"
     ∧ hasKey fsZZ "total" = true
     ∧ as_float (pyGet fsZZ "total") = some 5
     ∧ bf_parse (.dict fsZZ) = none)
    ∧ (bf_code fsBad = some "BA"
     ∧ dget UF_TO_STATE "BA" = some "Bahia"
     ∧ hasKey fsBad "total" = true
     ∧ as_float (pyGet fsBad "total") = some 5
     ∧ bf_parse (.dict fsBad) = none) := by
  exact ⟨⟨by decide, by decide, by decide, by decide⟩,
    ⟨by decide, by decide, by decide, by decide, by decide⟩⟩

/-- C4 (amended): for every baseline record with a well-formed
two-character code that resolves in the static code table, the total is
the first present alias of [total_pago_2021, total_paid_2021, total_paid,
total_pago, total], coerced to an optional float, and the record is kept
exactly when that probe yields a value. -/
theorem C4_baseline_probe :
    (∀ fs : List (String × PyVal),
      probe_loop bfAliases fs =
      match bfAliases.find? (fun k => hasKey fs k) with
      | some k => as_float (pyGet fs k)
      | none => none)
    ∧ (∀ (fs : List (String × PyVal)) (uf st : String),
        bf_code fs = some uf → dget UF_TO_STATE uf = some st →
        ((bf_parse (.dict fs)).isSome ↔ (probe_loop bfAliases fs).isSome)) := by
  refine ⟨fun fs => probe_loop_eq bfAliases fs, ?_⟩
  intro fs uf st h1 h2
  show (match bf_code fs with
        | none => none
        | some uf =>
          match probe_loop bfAliases fs with
          | none => none
          | some total =>
            match dget UF_TO_STATE uf with
            | none => none
            | some state =>
              some (_norm state, BFRow.mk state uf total)).isSome
      ↔ (probe_loop bfAliases fs).isSome
  rw [h1]
  cases probe_loop bfAliases fs with
  | none => simp
  | some total => simp [h2]

/-- Witness for C4 at a concrete record: `{"UF": "BA", "total": 5}` has a
valid code and its probe succeeds, so it is kept. -/
theorem C4_witness :
    (bf_parse (.dict [("UF", .str "BA"), ("total", .int 5)])).isSome
    ↔ (probe_loop bfAliases [("UF", .str "BA"), ("total", .int 5)]).isSome :=
  C4_baseline_probe.2 [("UF", .str "BA"), ("total", .int 5)] "BA" "Bahia"
    (by decide) (by decide)

/-- C1 join-fold characterization lemma: the join loop equals the
flat-map of per-state records plus per-dimension present/missing counts.
-/
theorem join_fold (san edu unemp : List (String × ℚ))
    (bf : List (String × BFRow)) :
    ∀ (out : List OutRec) (a m : Counts),
      bf.foldl (join_step san edu unemp) (out, a, m) =
      (out ++ bf.flatMap (stateRecs san edu unemp),
       ⟨a.sanitation + bf.countP (fun p => (dget san p.1).isSome),
        a.education + bf.countP (fun p => (dget edu p.1).isSome),
        a.unemployment + bf.countP (fun p => (dget unemp p.1).isSome)⟩,
       ⟨m.sanitation + bf.countP (fun p => (dget san p.1).isNone),
        m.education + bf.countP (fun p => (dget edu p.1).isNone),
        m.unemployment + bf.countP (fun p => (dget unemp p.1).isNone)⟩) := by
  induction bf with
  | nil => intro out a m; simp
  | cons p bf ih =>
    intro out a m
    rw [List.foldl_cons, List.flatMap_cons]
    rcases h1 : dget san p.1 with _ | v1 <;>
      rcases h2 : dget edu p.1 with _ | v2 <;>
        rcases h3 : dget unemp p.1 with _ | v3 <;>
          · simp only [join_step, h1, h2, h3]
            rw [ih]
            simp [stateRecs, h1, h2, h3, List.countP_cons]
            omega

/-- C1: the join iterates baseline states in insertion order, checks the
dimensions in the fixed order sanitation, education, unemployment, emits
one record per (state, dimension) pair whose metric map contains the key,
and counts one missing per absent pair; on the spec's concrete example it
emits exactly the two records, in order. -/
theorem C1_join :
    (∀ (bf : List (String × BFRow)) (san edu unemp : List (String × ℚ)),
      build_join bf san edu unemp =
      (bf.flatMap (stateRecs san edu unemp),
       ⟨bf.countP (fun p => (dget san p.1).isSome),
        bf.countP (fun p => (dget edu p.1).isSome),
        bf.countP (fun p => (dget unemp p.1).isSome)⟩,
       ⟨bf.countP (fun p => (dget san p.1).isNone),
        bf.countP (fun p => (dget edu p.1).isNone),
        bf.countP (fun p => (dget unemp p.1).isNone)⟩))
    ∧ build_join [("bahia", ⟨"Bahia", "BA", 100⟩)]
        [("bahia", (185/2 : ℚ))] [] [("bahia", 8)] =
      ([⟨"BA", "Bahia", 100, "Sanitation access (%)", 185/2⟩,
        ⟨"BA", "Bahia", 100, "Unemployment (%)", 8⟩],
       ⟨1, 0, 1⟩, ⟨0, 1, 0⟩) := by
  constructor
  · intro bf san edu unemp
    unfold build_join
    rw [join_fold]
    simp
  · with_unfolding_all rfl

/-- The education fold for one key, with an arbitrary current best entry:
the result is the first entry whose year strictly exceeds everything so
far. -/
theorem keep1_some (es : List (ℤ × ℚ)) :
    ∀ b : ℤ × ℚ,
      keep1 (some b) es =
      match maxKey es with
      | none => some b
      | some M => if b.1 < M then es.find? (fun p => decide (p.1 = M)) else some b := by
  induction es with
  | nil => intro b; rfl
  | cons e es ih =>
    intro b
    obtain ⟨y, v⟩ := e
    have hstep : keep1 (some b) ((y, v) :: es) =
        keep1 (if y > b.1 then some (y, v) else some b) es := by
      simp only [keep1]
    rw [hstep]
    by_cases hyb : b.1 < y
    · rw [if_pos hyb, ih (y, v)]
      cases hM : maxKey es with
      | none =>
        simp only [maxKey, hM, if_pos hyb]
        rw [List.find?_cons_of_pos _ (by simp)]
      | some M =>
        simp only [maxKey, hM]
        by_cases hyM : y < M
        · rw [if_pos hyM, max_eq_right hyM.le,
            if_pos (lt_trans hyb hyM),
            List.find?_cons_of_neg _ (by simp; omega)]
        · rw [if_neg hyM, max_eq_left (le_of_not_lt hyM),
            if_pos hyb, List.find?_cons_of_pos _ (by simp)]
    · rw [if_neg hyb, ih b]
      have hyb' : y ≤ b.1 := le_of_not_lt hyb
      cases hM : maxKey es with
      | none =>
        simp only [maxKey, hM, if_neg hyb]
      | some M =>
        simp only [maxKey, hM]
        by_cases hbM : b.1 < M
        · rw [if_pos hbM, if_pos (by omega : b.1 < max y M),
            max_eq_right (by omega : y ≤ M),
            List.find?_cons_of_neg _ (by simp; omega)]
        · rw [if_neg hbM, if_neg (by rcases max_choice y M with h | h <;> omega)]

/-- Starting from no best entry, the education fold picks the first entry
achieving the maximal year. -/
theorem keep1_none (es : List (ℤ × ℚ)) : keep1 none es = firstMax es := by
  cases es with
  | nil => rfl
  | cons e es =>
    obtain ⟨y, v⟩ := e
    have hstep : keep1 none ((y, v) :: es) = keep1 (some (y, v)) es := by
      simp only [keep1]
    rw [hstep, keep1_some]
    unfold firstMax
    cases hM : maxKey es with
    | none =>
      simp only [maxKey, hM]
      rw [List.find?_cons_of_pos _ (by simp)]
    | some M =>
      simp only [maxKey, hM]
      by_cases hyM : y < M
      · rw [if_pos hyM, max_eq_right hyM.le,
          List.find?_cons_of_neg _ (by simp; omega)]
      · rw [if_neg hyM, max_eq_left (le_of_not_lt hyM),
          List.find?_cons_of_pos _ (by simp)]

/-- The education loop over a row list, restricted to one key, equals the
`keep1` fold over that key's valid (year, value) entries. -/
theorem edu_fold (rows : List Row) :
    ∀ (best : List (String × ℤ × ℚ)) (k : String),
      dget (rows.foldl edu_step best) k =
      keep1 (dget best k)
        (((eduEntries rows).filter (fun e => decide (e.1 = k))).map
          (fun e => e.2)) := by
  induction rows with
  | nil => intro best k; simp [eduEntries, keep1]
  | cons r rows ih =>
    intro best k
    rw [List.foldl_cons]
    have hent : eduEntries (r :: rows) =
        match edu_parse r with
        | none => eduEntries rows
        | some e => e :: eduEntries rows := by
      simp [eduEntries, List.filterMap_cons]
      cases edu_parse r <;> simp
    cases hp : edu_parse r with
    | none =>
      rw [hent, hp]
      have hstep : edu_step best r = best := by simp [edu_step, hp]
      rw [hstep, ih]
    | some e =>
      obtain ⟨k', y, ys⟩ := e
      rw [hent, hp, ih]
      by_cases hk : k' = k
      · subst hk
        rw [List.filter_cons_of_pos (by simp), List.map_cons]
        have hrhs : keep1 (dget best k') ((y, ys) ::
            ((eduEntries rows).filter (fun e => decide (e.1 = k'))).map
              (fun e => e.2)) =
            keep1 (match dget best k' with
                   | none => some (y, ys)
                   | some prev => if y > prev.1 then some (y, ys)
                     else dget best k')
              (((eduEntries rows).filter (fun e => decide (e.1 = k'))).map
                (fun e => e.2)) := by
          simp only [keep1]
        rw [hrhs]
        cases hb : dget best k' with
        | none =>
          have h2 : edu_step best r = dinsert k' (y, ys) best := by
            simp [edu_step, hp, hb]
          rw [h2, dget_dinsert_self]
        | some prev =>
          by_cases hy : y > prev.1
          · have h2 : edu_step best r = dinsert k' (y, ys) best := by
              simp [edu_step, hp, hb, hy]
            rw [h2, dget_dinsert_self]
            simp [hy]
          · have h2 : edu_step best r = best := by
              simp [edu_step, hp, hb, hy]
            rw [h2, hb]
            simp [hy]
      · rw [List.filter_cons_of_neg (by simp [hk])]
        have h3 : dget (edu_step best r) k = dget best k := by
          have h4 : edu_step best r =
              match dget best k' with
              | none => dinsert k' (y, ys) best
              | some prev =>
                if y > prev.1 then dinsert k' (y, ys) best else best := by
            simp [edu_step, hp]
          rw [h4]
          cases hb : dget best k' with
          | none => exact dget_dinsert_ne k' k (y, ys) best hk
          | some prev =>
            show dget (if y > prev.1 then dinsert k' (y, ys) best else best) k
              = dget best k
            by_cases hy : y > prev.1
            · rw [if_pos hy]
              exact dget_dinsert_ne k' k (y, ys) best hk
            · rw [if_neg hy]
        rw [h3]

/-- C3: the education loader keeps, per key, the value of the first record
achieving the numerically-largest parseable year (a later record replaces
only on a strictly greater year); Bahia 2019 (7.1) / 2021 (7.9) yields
7.9, and on an exact year tie the first record stands. -/
theorem C3_education :
    (∀ (rows : List Row) (k : String),
      dget (eduBest rows) k =
      firstMax (((eduEntries rows).filter (fun e => decide (e.1 = k))).map
        (fun e => e.2)))
    ∧ (∀ (rows : List Row) (k : String),
      dget (load_edu rows) k = (dget (eduBest rows) k).map (fun p => p.2))
    ∧ load_edu exEdu = [("bahia", (79/10 : ℚ))]
    ∧ load_edu exEduTie = [("bahia", (71/10 : ℚ))] := by
  refine ⟨?_, ?_, by with_unfolding_all rfl, by with_unfolding_all rfl⟩
  · intro rows k
    unfold eduBest
    rw [edu_fold rows [] k]
    show keep1 none _ = _
    rw [keep1_none]
  · intro rows k
    unfold load_edu
    exact dget_map_snd (eduBest rows) (fun p => p.2) k

/-- Lemma: `appendRate` on the looked-up year appends the rate; other years are
untouched. -/
theorem dget_appendRate (y' : ℤ) (r : ℚ) (m : List (ℤ × List ℚ)) (y : ℤ) :
    dget (appendRate y' r m) y =
    if y' = y then some ((dget m y).getD [] ++ [r]) else dget m y := by
  induction m with
  | nil =>
    by_cases h : y' = y <;> simp [appendRate, dget, h]
  | cons p t ih =>
    obtain ⟨y'', l⟩ := p
    by_cases h1 : y'' = y'
    · by_cases h2 : y'' = y
      · have hy : y' = y := h1.symm.trans h2
        simp [appendRate, dget, h1, h2, hy]
      · have hy : y' ≠ y := fun hc => h2 (h1.trans hc)
        simp [appendRate, dget, h1, h2, hy]
    · by_cases h2 : y'' = y
      · have hy : y' ≠ y := fun hc => h1 (h2.trans hc.symm)
        have hy2 : y ≠ y' := fun hc => hy hc.symm
        simp [appendRate, dget, h1, h2, hy, hy2]
      · simp [appendRate, dget, h1, h2, ih]

/-- The observation list for a year after `appendRate`. -/
theorem ratesOf2_appendRate (y' : ℤ) (r : ℚ) (m : List (ℤ × List ℚ)) (y : ℤ) :
    ratesOf2 (appendRate y' r m) y =
    ratesOf2 m y ++ (if y' = y then [r] else []) := by
  unfold ratesOf2
  rw [dget_appendRate]
  by_cases h : y' = y <;> simp [h]

/-- Lemma: `addRate` on the looked-up key appends into that key's year map;
other keys are untouched. -/
theorem dget_addRate (k' : String) (y : ℤ) (r : ℚ)
    (d : List (String × List (ℤ × List ℚ))) (k : String) :
    dget (addRate k' y r d) k =
    if k' = k then some (appendRate y r ((dget d k).getD [])) else dget d k := by
  induction d with
  | nil =>
    by_cases h : k' = k <;> simp [addRate, appendRate, dget, h]
  | cons p t ih =>
    obtain ⟨k'', m⟩ := p
    by_cases h1 : k'' = k'
    · by_cases h2 : k'' = k
      · have hk : k' = k := h1.symm.trans h2
        simp [addRate, dget, h1, h2, hk]
      · have hk : k' ≠ k := fun hc => h2 (h1.trans hc)
        simp [addRate, dget, h1, h2, hk]
    · by_cases h2 : k'' = k
      · have hk : k' ≠ k := fun hc => h1 (h2.trans hc.symm)
        have hk2 : k ≠ k' := fun hc => hk hc.symm
        simp [addRate, dget, h1, h2, hk, hk2]
      · simp [addRate, dget, h1, h2, ih]

/-- The tracked observation list after one `addRate`. -/
theorem ratesOf_addRate (k' : String) (y' : ℤ) (r : ℚ)
    (d : List (String × List (ℤ × List ℚ))) (k : String) (y : ℤ) :
    ratesOf (addRate k' y' r d) k y =
    ratesOf d k y ++ (if k' = k ∧ y' = y then [r] else []) := by
  unfold ratesOf
  rw [dget_addRate]
  by_cases h1 : k' = k
  · rw [if_pos h1, Option.getD_some, ratesOf2_appendRate]
    by_cases h2 : y' = y <;> simp [h1, h2]
  · rw [if_neg h1]
    simp [h1]

/-- The grouping fold collects, per (key, year), exactly the coercible
rates of the matching records, in order. -/
theorem ratesOf_fold (rows : List Row) :
    ∀ (d : List (String × List (ℤ × List ℚ))) (k : String) (y : ℤ),
      ratesOf (rows.foldl unemp_step d) k y =
      ratesOf d k y ++
      ((unempEntries rows).filter
        (fun e => decide (e.1 = k) && decide (e.2.1 = y))).map
        (fun e => e.2.2) := by
  induction rows with
  | nil => intro d k y; simp [unempEntries]
  | cons r rows ih =>
    intro d k y
    rw [List.foldl_cons]
    have hent : unempEntries (r :: rows) =
        match unemp_parse r with
        | none => unempEntries rows
        | some e => e :: unempEntries rows := by
      simp only [unempEntries, List.filterMap_cons]
      cases unemp_parse r <;> simp
    cases hp : unemp_parse r with
    | none =>
      rw [hent, hp]
      have hstep : unemp_step d r = d := by simp [unemp_step, hp]
      rw [hstep, ih]
    | some e =>
      obtain ⟨k', y', rt⟩ := e
      rw [hent, hp]
      have hstep : unemp_step d r = addRate k' y' rt d := by
        simp [unemp_step, hp]
      rw [hstep, ih, ratesOf_addRate]
      by_cases hcond : k' = k ∧ y' = y
      · rw [if_pos hcond,
          List.filter_cons_of_pos (by simp [hcond.1, hcond.2]),
          List.map_cons, List.append_assoc]
        simp
      · rw [if_neg hcond, List.filter_cons_of_neg ?hneg, List.append_nil]
        case hneg =>
          simp only [Bool.and_eq_true, decide_eq_true_eq]
          exact hcond

/-- Lemma: `appendRate` never produces an empty year map. -/
theorem appendRate_ne_nil (y : ℤ) (r : ℚ) (m : List (ℤ × List ℚ)) :
    appendRate y r m ≠ [] := by
  cases m with
  | nil => simp [appendRate]
  | cons p t =>
    obtain ⟨y'', l⟩ := p
    by_cases h : y'' = y <;> simp [appendRate, h]

/-- Lemma: `appendRate` keeps every observation list non-empty. -/
theorem appendRate_keeps (y : ℤ) (r : ℚ) (m : List (ℤ × List ℚ))
    (hm : ∀ p ∈ m, p.2 ≠ ([] : List ℚ)) :
    ∀ p ∈ appendRate y r m, p.2 ≠ ([] : List ℚ) := by
  induction m with
  | nil =>
    intro p hp
    simp [appendRate] at hp
    subst hp
    simp
  | cons q t ih =>
    obtain ⟨y'', l⟩ := q
    intro p hp
    by_cases h : y'' = y
    · rw [appendRate, if_pos h] at hp
      rcases List.mem_cons.mp hp with h2 | h2
      · subst h2; simp
      · exact hm p (List.mem_cons_of_mem _ h2)
    · rw [appendRate, if_neg h] at hp
      rcases List.mem_cons.mp hp with h2 | h2
      · subst h2
        exact hm (y'', l) (List.mem_cons_self _ _)
      · exact ih (fun q hq => hm q (List.mem_cons_of_mem _ hq)) p h2

/-- Lemma: `addRate` preserves the non-emptiness invariant of the grouping
structure. -/
theorem goodD_addRate (k : String) (y : ℤ) (r : ℚ)
    (d : List (String × List (ℤ × List ℚ))) (h : goodD d) :
    goodD (addRate k y r d) := by
  induction d with
  | nil =>
    intro q hq
    simp [addRate] at hq
    subst hq
    refine ⟨by simp, ?_⟩
    intro p hp
    simp at hp
    subst hp
    simp
  | cons e t ih =>
    obtain ⟨k', m⟩ := e
    intro q hq
    by_cases hk : k' = k
    · rw [addRate, if_pos hk] at hq
      rcases List.mem_cons.mp hq with h2 | h2
      · subst h2
        exact ⟨appendRate_ne_nil y r m,
          appendRate_keeps y r m (h (k', m) (List.mem_cons_self _ _)).2⟩
      · exact h q (List.mem_cons_of_mem _ h2)
    · rw [addRate, if_neg hk] at hq
      rcases List.mem_cons.mp hq with h2 | h2
      · subst h2
        exact h (k', m) (List.mem_cons_self _ _)
      · exact ih (fun q hq2 => h q (List.mem_cons_of_mem _ hq2)) q h2

/-- The grouping pass always satisfies the non-emptiness invariant. -/
theorem goodD_byStateYear (rows : List Row) : goodD (byStateYear rows) := by
  have hgen : ∀ d, goodD d → goodD (rows.foldl unemp_step d) := by
    induction rows with
    | nil => intro d h; exact h
    | cons r rows ih =>
      intro d h
      rw [List.foldl_cons]
      refine ih _ ?_
      unfold unemp_step
      cases hp : unemp_parse r with
      | none => exact h
      | some e => exact goodD_addRate e.1 e.2.1 e.2.2 d h

  refine hgen [] ?_
  intro q hq
  simp at hq

/-- Lemma: `max` of a non-empty key set exists. -/
theorem maxKey_isSome {β : Type} (m : List (ℤ × β)) (h : m ≠ []) :
    (maxKey m).isSome := by
  cases m with
  | nil => exact absurd rfl h
  | cons p t =>
    rw [maxKey]
    cases maxKey t <;> simp

/-- The maximal key is one of the keys. -/
theorem maxKey_mem_keys {β : Type} (m : List (ℤ × β)) (y : ℤ)
    (h : maxKey m = some y) : y ∈ m.map (fun p => p.1) := by
  induction m with
  | nil => simp [maxKey] at h
  | cons p t ih =>
    rw [maxKey] at h
    cases ht : maxKey t with
    | none =>
      rw [ht] at h
      injection h with h
      rw [List.map_cons, h]
      exact List.mem_cons_self _ _
    | some mt =>
      rw [ht] at h
      injection h with h
      rcases max_choice p.1 mt with hc | hc
      · rw [List.map_cons, ← h, hc]
        exact List.mem_cons_self _ _
      · refine List.mem_cons_of_mem _ (ih ?_)
        rw [ht, ← h, hc]

/-- Every key of the map is `dget`-reachable. -/
theorem dget_isSome_of_mem_keys {β : Type} (m : List (ℤ × β)) (y : ℤ)
    (h : y ∈ m.map (fun p => p.1)) : (dget m y).isSome := by
  induction m with
  | nil => simp at h
  | cons p t ih =>
    by_cases hp : p.1 = y
    · obtain ⟨a, b⟩ := p
      simp only [dget]
      rw [if_pos hp]
      rfl
    · obtain ⟨a, b⟩ := p
      simp only [dget]
      rw [if_neg hp]
      rw [List.map_cons] at h
      rcases List.mem_cons.mp h with h2 | h2
      · exact absurd h2.symm hp
      · exact ih h2

/-- Under the invariant, the per-state selection never fails. -/
theorem unemp_pick_isSome (m : List (ℤ × List ℚ)) (hm : m ≠ [])
    (hl : ∀ p ∈ m, p.2 ≠ ([] : List ℚ)) : (unemp_pick m).isSome := by
  unfold unemp_pick
  cases h22 : dget m 2022 with
  | some l =>
    show (if l.isEmpty = true then unemp_fallback m else pyMean? l).isSome = true
    have hne : l ≠ [] := hl (2022, l) (dget_mem m 2022 l h22)
    rw [if_neg (by simp [hne]), pyMean?, if_neg hne]
    rfl
  | none =>
    show (unemp_fallback m).isSome = true
    unfold unemp_fallback
    cases hmk : maxKey m with
    | none =>
      have h2 := maxKey_isSome m hm
      rw [hmk] at h2
      simp at h2
    | some Y =>
      show (match dget m Y with
            | none => none
            | some l => pyMean? l).isSome = true
      have hkeys := maxKey_mem_keys m Y hmk
      have hg := dget_isSome_of_mem_keys m Y hkeys
      cases hdg : dget m Y with
      | none => rw [hdg] at hg; simp at hg
      | some l =>
        show (pyMean? l).isSome = true
        have hne : l ≠ [] := hl (Y, l) (dget_mem m Y l hdg)
        rw [pyMean?, if_neg hne]
        rfl

/-- Under the invariant, the output pass of the unemployment loader never
fails. -/
theorem unemp_out_isSome (d : List (String × List (ℤ × List ℚ)))
    (h : goodD d) : (unemp_out d).isSome := by
  induction d with
  | nil => simp [unemp_out]
  | cons p t ih =>
    obtain ⟨k, m⟩ := p
    have hh := h (k, m) (List.mem_cons_self _ _)
    have hp := unemp_pick_isSome m hh.1 hh.2
    have ht := ih (fun q hq => h q (List.mem_cons_of_mem _ hq))
    rw [unemp_out]
    cases hpick : unemp_pick m with
    | none => rw [hpick] at hp; simp at hp
    | some v =>
      cases hout : unemp_out t with
      | none => rw [hout] at ht; simp at ht
      | some rest => simp

/-- The output pass maps each grouped state to its selected value. -/
theorem unemp_out_dget (d : List (String × List (ℤ × List ℚ)))
    (out : List (String × ℚ)) (hout : unemp_out d = some out) :
    ∀ (k : String) (m : List (ℤ × List ℚ)), dget d k = some m →
      ∃ v, dget out k = some v ∧ unemp_pick m = some v := by
  induction d generalizing out with
  | nil => intro k m h; simp [dget] at h
  | cons p t ih =>
    obtain ⟨k', m'⟩ := p
    intro k m h
    rw [unemp_out] at hout
    cases hpick : unemp_pick m' with
    | none => rw [hpick] at hout; simp at hout
    | some v =>
      cases hrest : unemp_out t with
      | none => rw [hpick, hrest] at hout; simp at hout
      | some rest =>
        rw [hpick, hrest] at hout
        injection hout with hout
        subst hout
        simp only [dget] at h ⊢
        by_cases hk : k' = k
        · rw [if_pos hk] at h ⊢
          injection h with h
          subst h
          exact ⟨v, rfl, hpick⟩
        · rw [if_neg hk] at h ⊢
          exact ih rest hrest k m h

/-- C10: every per-(state, year) observation list in the grouping
structure is non-empty, so the mean is always of a non-empty list and the
mean-of-empty-sequence failure is unreachable: the unemployment loader
succeeds on every input. -/
theorem C10_nonempty_groups :
    ∀ rows : List Row,
      (∀ (k : String) (m : List (ℤ × List ℚ)),
        dget (byStateYear rows) k = some m →
        m ≠ [] ∧ ∀ (y : ℤ) (l : List ℚ), dget m y = some l → l ≠ [])
      ∧ (load_unemp rows).isSome := by
  intro rows
  have hg : goodD (byStateYear rows) := goodD_byStateYear rows
  constructor
  · intro k m h
    have hmem := hg (k, m) (dget_mem _ k m h)
    exact ⟨hmem.1, fun y l hl => hmem.2 (y, l) (dget_mem m y l hl)⟩
  · unfold load_unemp
    exact unemp_out_isSome _ hg

/-- Witness for C10: on the concrete two-quarter input the grouped list is
non-empty and the loader succeeds. -/
theorem C10_witness :
    [((2022 : ℤ), [(9 : ℚ), 11])] ≠ [] ∧ (load_unemp exUn1).isSome :=
  ⟨((C10_nonempty_groups exUn1).1 "x" [(2022, [9, 11])]
      (by with_unfolding_all rfl)).1,
   (C10_nonempty_groups exUn1).2⟩

/-- C2: the unemployment loader groups coercible rates by (normalized
state, year from the first four digits of Quarter), and per state outputs
the mean of 2022's observations when present, otherwise the mean of the
single latest year; 2022Q1 (9.0) and 2022Q3 (11.0) give 10.0, and a lone
2021Q2 (6.0) gives 6.0. -/
theorem C2_unemployment :
    (∀ (rows : List Row) (k : String) (y : ℤ),
      ratesOf (byStateYear rows) k y =
      ((unempEntries rows).filter
        (fun e => decide (e.1 = k) && decide (e.2.1 = y))).map
        (fun e => e.2.2))
    ∧ (∀ (rows : List Row) (k : String) (m : List (ℤ × List ℚ)),
        dget (byStateYear rows) k = some m →
        ((ratesOf2 m 2022 ≠ [] ∧ unempResult rows k = pyMean? (ratesOf2 m 2022))
         ∨ (ratesOf2 m 2022 = [] ∧ (maxKey m).isSome
            ∧ unempResult rows k = latestMean m)))
    ∧ load_unemp exUn1 = some [("x", 10)]
    ∧ load_unemp exUn2 = some [("x", 6)] := by
  refine ⟨?_, ?_, by with_unfolding_all rfl, by with_unfolding_all rfl⟩
  · intro rows k y
    unfold byStateYear
    rw [ratesOf_fold rows [] k y]
    simp [ratesOf, ratesOf2, dget]
  · intro rows k m h
    have hg : goodD (byStateYear rows) := goodD_byStateYear rows
    have hmem := hg (k, m) (dget_mem _ k m h)
    have hsome := unemp_out_isSome (byStateYear rows) hg
    cases hout : unemp_out (byStateYear rows) with
    | none => rw [hout] at hsome; simp at hsome
    | some out =>
      obtain ⟨v, hv, hpick⟩ := unemp_out_dget _ out hout k m h
      have hres : unempResult rows k = some v := by
        unfold unempResult load_unemp
        rw [hout]
        show dget out k = some v
        exact hv
      unfold unemp_pick at hpick
      cases h22 : dget m 2022 with
      | some l =>
        rw [h22] at hpick
        have hpick2 : (if l.isEmpty = true then unemp_fallback m
            else pyMean? l) = some v := hpick
        have hl : l ≠ [] := hmem.2 (2022, l) (dget_mem m 2022 l h22)
        rw [if_neg (by simp [hl])] at hpick2
        left
        have h2r : ratesOf2 m 2022 = l := by
          unfold ratesOf2
          rw [h22]
          rfl
        rw [h2r]
        exact ⟨hl, hres.trans hpick2.symm⟩
      | none =>
        rw [h22] at hpick
        have hpick2 : unemp_fallback m = some v := hpick
        right
        have hm2 : ratesOf2 m 2022 = [] := by
          unfold ratesOf2
          rw [h22]
          rfl
        have hmax := maxKey_isSome m hmem.1
        refine ⟨hm2, hmax, ?_⟩
        cases hmk : maxKey m with
        | none => rw [hmk] at hmax; simp at hmax
        | some Y =>
          unfold unemp_fallback at hpick2
          rw [hmk] at hpick2
          have hpick3 : (match dget m Y with
              | none => none
              | some l => pyMean? l) = some v := hpick2
          cases hdg : dget m Y with
          | none => rw [hdg] at hpick3; simp at hpick3
          | some l =>
            rw [hdg] at hpick3
            have hpick4 : pyMean? l = some v := hpick3
            have hlm : latestMean m = pyMean? l := by
              unfold latestMean
              rw [hmk]
              show pyMean? (ratesOf2 m Y) = pyMean? l
              unfold ratesOf2
              rw [hdg]
              rfl
            rw [hres, hlm]
            exact hpick4.symm

/-- Witness for C2 at the concrete two-quarter input: its grouped state
has 2022 observations and the output is their mean. -/
theorem C2_witness :
    (ratesOf2 [((2022 : ℤ), [(9 : ℚ), 11])] 2022 ≠ [] ∧
      unempResult exUn1 "x" = pyMean? (ratesOf2 [((2022 : ℤ), [(9 : ℚ), 11])] 2022))
    ∨ (ratesOf2 [((2022 : ℤ), [(9 : ℚ), 11])] 2022 = [] ∧
      (maxKey [((2022 : ℤ), [(9 : ℚ), 11])]).isSome ∧
      unempResult exUn1 "x" = latestMean [((2022 : ℤ), [(9 : ℚ), 11])]) :=
  C2_unemployment.2.1 exUn1 "x" [(2022, [9, 11])] (by with_unfolding_all rfl)

end Chart5
